import Mathlib

/-!
Verification development for the BackupMate repository: a shallow embedding of
the schema codec (`serialize_column` / `deserialize_column`), the dependency
resolver (`topological_sort`), the restore orchestrator (`restore_database`)
with its lock-retry loop, the backup entry point (`backup_database`), and the
temporal value coercer of `BackupMate/main.py`.

The embedding follows `src/db_backup_restore.py` for the codec, the resolver
and the restore orchestrator (the variant that performs the topological sort),
and `src/BackupMate/main.py` for the datetime coercion fallback chain, which
is the variant the packaged CLI (`BackupMate/cli.py`) imports.
-/

namespace BackupMate

/-- Alias for `String`, used where a `String` constructor of an inductive
would otherwise shadow the type. -/
abbrev Str := String

/-- A Python scalar value, as far as column defaults are concerned.
`pyStr` below models Python's `str()` on these values. -/
inductive Value where
  | vStr (s : String)
  | vInt (n : Int)
  | vBool (b : Bool)
deriving DecidableEq

/-- Python `str()` on a `Value`: strings are returned verbatim, integers via
decimal rendering, booleans as `True`/`False`. -/
def pyStr : Value → String
  | .vStr s => s
  | .vInt n => toString n
  | .vBool b => if b then "True" else "False"

/-- A SQLAlchemy column type instance.  The first eleven constructors are the
classes listed in `SQLALCHEMY_TYPE_MAPPING`; `Other` stands for any native
type class outside that closed set (e.g. `JSON`, `Interval`). -/
inductive PyType where
  | Integer
  | Float
  | Boolean
  | DateTime
  | Date
  | Text
  | Numeric
  | LargeBinary
  | String (length : Option Nat)
  | Enum (enums : List Str)
  | ARRAY (item : PyType)
  | Other (clsName : Str)
deriving DecidableEq

/-- `type(column.type).__name__`: the Python class name of a type instance. -/
def PyType.clsNameOf : PyType → Str
  | .Integer => "Integer"
  | .Float => "Float"
  | .Boolean => "Boolean"
  | .DateTime => "DateTime"
  | .Date => "Date"
  | .Text => "Text"
  | .Numeric => "Numeric"
  | .LargeBinary => "LargeBinary"
  | .String _ => "String"
  | .Enum _ => "Enum"
  | .ARRAY _ => "ARRAY"
  | .Other c => c

/-- `SQLALCHEMY_TYPE_MAPPING.get(type(column.type))`, reduced to the `name`
entry of the mapping value (the `args` lists are handled structurally in
`serialize_column`).  `none` models a class absent from the dict. -/
def typeMappingName : PyType → Option String
  | .Integer => some "Integer"
  | .Float => some "Float"
  | .Boolean => some "Boolean"
  | .DateTime => some "DateTime"
  | .Date => some "Date"
  | .Text => some "Text"
  | .Numeric => some "Numeric"
  | .LargeBinary => some "LargeBinary"
  | .String _ => some "String"
  | .Enum _ => some "Enum"
  | .ARRAY _ => some "ARRAY"
  | .Other _ => none

/-- A foreign-key target as it appears both on `Column.foreign_keys` and in
the serialized `foreign_keys` entries: referenced column, referenced table,
optional referenced schema. -/
structure FKeyRef where
  column : String
  table : String
  schema : Option String
deriving DecidableEq

/-- A SQLAlchemy `Column` object, restricted to the attributes the codec
reads: name, type instance, nullability, primary-key flag, unique flag
(tri-state in SQLAlchemy: unset/True/False), optional default value, the
foreign keys hanging off the column, and the column lists of any `Index`
objects attached to it (read only for the serialized `index` boolean). -/
structure PyColumn where
  name : String
  type : PyType
  nullable : Bool
  primary_key : Bool
  unique : Option Bool
  default : Option Value
  foreign_keys : List FKeyRef
  indexes : List (List String)
deriving DecidableEq

/-- The serialized `type` sub-dictionary: the `type` name plus the optional
type-specific keys `length`, `enum_values`, `item_type`.  An outer `none`
models the key being absent from the dictionary (for `length` the stored
value may itself be Python `None`, hence `Option (Option Nat)`). -/
structure ColTypeDict where
  type_ : String
  length : Option (Option Nat) := none
  enum_values : Option (List String) := none
  item_type : Option String := none
deriving DecidableEq

/-- The dictionary produced by `serialize_column` (all eight keys are always
present in the output of the serializer). -/
structure ColDict where
  name : String
  type : ColTypeDict
  nullable : Bool
  primary_key : Bool
  unique : Option Bool
  default : Option String
  foreign_keys : List FKeyRef
  index : Bool
deriving DecidableEq

/-- `serialize_column` from `src/db_backup_restore.py` (lines 51-98): dispatch
on the exact class of `column.type` through `SQLALCHEMY_TYPE_MAPPING`, raising
`ValueError` for an unmapped class; capture `length` for `String`,
`enum_values` for `Enum`, the item class name for `ARRAY`; stringify the
default with `str(...)` when present; copy the foreign-key targets; record
whether any attached index has a nonempty column list. -/
def serialize_column (c : PyColumn) : Except String ColDict :=
  match typeMappingName c.type with
  | none =>
      .error ("Unsupported column type: " ++ c.type.clsNameOf ++ " for column " ++ c.name)
  | some tyName =>
      let colType : ColTypeDict :=
        match c.type with
        | .String l => { type_ := tyName, length := some l }
        | .Enum vs => { type_ := tyName, enum_values := some vs }
        | .ARRAY item => { type_ := tyName, item_type := some item.clsNameOf }
        | _ => { type_ := tyName }
      .ok {
        name := c.name
        type := colType
        nullable := c.nullable
        primary_key := c.primary_key
        unique := c.unique
        default := c.default.map pyStr
        foreign_keys := c.foreign_keys
        index := c.indexes.any (fun cols => !cols.isEmpty)
      }

/-- The classes stored in `STRING_TO_SQLALCHEMY_TYPE` (the reverse table). -/
inductive TypeCls where
  | clsInteger
  | clsString
  | clsFloat
  | clsBoolean
  | clsDateTime
  | clsDate
  | clsText
  | clsNumeric
  | clsLargeBinary
  | clsEnum
  | clsARRAY
deriving DecidableEq

/-- `STRING_TO_SQLALCHEMY_TYPE.get(name)`. -/
def lookupTypeClass : String → Option TypeCls
  | "Integer" => some .clsInteger
  | "String" => some .clsString
  | "Float" => some .clsFloat
  | "Boolean" => some .clsBoolean
  | "DateTime" => some .clsDateTime
  | "Date" => some .clsDate
  | "Text" => some .clsText
  | "Numeric" => some .clsNumeric
  | "LargeBinary" => some .clsLargeBinary
  | "Enum" => some .clsEnum
  | "ARRAY" => some .clsARRAY
  | _ => none

/-- Instantiating a type class with no arguments (`col_type_class()` and the
item slot of `ARRAY(...)`).  `String()` has `length=None`; `Enum()` has no
members.  SQLAlchemy stores the bare class in the `ARRAY` item slot and treats
it as its default instance; a nested `ARRAY` element class has no default
instance and is modelled by the generic string fallback the decoder uses for
unrecognized names. -/
def TypeCls.defaultInstance : TypeCls → PyType
  | .clsInteger => .Integer
  | .clsString => .String none
  | .clsFloat => .Float
  | .clsBoolean => .Boolean
  | .clsDateTime => .DateTime
  | .clsDate => .Date
  | .clsText => .Text
  | .clsNumeric => .Numeric
  | .clsLargeBinary => .LargeBinary
  | .clsEnum => .Enum []
  | .clsARRAY => .ARRAY (.String none)

/-- Normalize a serialized foreign-key target into the `ForeignKey` column
reference built by the decoder: the target string is
`f"{schema + '.' if schema else ''}{table}.{column}"`, so an empty-string
schema (falsy in Python) collapses to no schema. -/
def normalizeFKey (f : FKeyRef) : FKeyRef :=
  { f with schema := match f.schema with
                     | some "" => none
                     | s => s }

/-- `deserialize_column` from `src/db_backup_restore.py` (lines 100-154):
look the type name up in `STRING_TO_SQLALCHEMY_TYPE` (raising `ValueError`
when absent); rebuild `String` with its stored length, `Enum` from
`enum_values` (defaulting to no members), `ARRAY` from the stored item class
name (`KeyError` when `item_type` is missing, generic `String` fallback when
the name is unrecognized); rebuild the foreign keys from their target
strings; pass `nullable`, `primary_key`, `unique` and the (string) default
through to the new `Column`. -/
def deserialize_column (d : ColDict) : Except String PyColumn :=
  match lookupTypeClass d.type.type_ with
  | none =>
      .error ("Unsupported column type: " ++ d.type.type_ ++ " for column " ++ d.name)
  | some cls =>
      let colTypeE : Except String PyType :=
        match d.type.type_, cls with
        | "Enum", _ => .ok (.Enum (d.type.enum_values.getD []))
        | "ARRAY", _ =>
            match d.type.item_type with
            | none => .error ("KeyError: item_type for column " ++ d.name)
            | some itemName =>
                .ok (.ARRAY ((lookupTypeClass itemName).getD .clsString).defaultInstance)
        | "String", _ =>
            match d.type.length with
            | some l => .ok (.String l)
            | none => .ok (.String none)
        | _, c => .ok c.defaultInstance
      colTypeE.map fun colType =>
        { name := d.name
          type := colType
          nullable := d.nullable
          primary_key := d.primary_key
          unique := d.unique
          default := d.default.map Value.vStr
          foreign_keys := d.foreign_keys.map normalizeFKey
          indexes := [] }

/-! ### Dependency resolver (`topological_sort`, `src/db_backup_restore.py` lines 156-181)

The dependency graph is the Python dict `table name → set of referenced
tables`, modelled as an association list whose key order is the dict's
insertion order and whose value lists are duplicate-free (Python sets). -/

/-- The dependency graph: each key maps to the tables it references. -/
abbrev Graph := List (String × List String)

/-- Lookup in the `in_degree` defaultdict (missing keys read as 0). -/
def idLookup (m : List (String × Int)) (x : String) : Int :=
  match m.find? (fun p => p.1 == x) with
  | some p => p.2
  | none => 0

/-- `in_degree[x] += delta` on the defaultdict (inserts `delta` if absent). -/
def idUpd (m : List (String × Int)) (x : String) (delta : Int) : List (String × Int) :=
  match m with
  | [] => [(x, delta)]
  | (k, v) :: rest => if k = x then (k, v + delta) :: rest else (k, v) :: idUpd rest x delta

/-- Building `in_degree`: for every key's dependency set, increment the
in-degree of each referenced table. -/
def initIndeg (g : Graph) : List (String × Int) :=
  g.foldl (fun m p => p.2.foldl (fun m2 d => idUpd m2 d 1) m) []

/-- The body of the `for dependent in dependency_graph` loop run after popping
`t`: for each key referencing `t`, decrement its in-degree and enqueue it when
the decremented value is exactly 0.  State is `(in_degree, queue)`. -/
def kahnPass (g : Graph) (t : String) (st : List (String × Int) × List String) :
    List (String × Int) × List String :=
  g.foldl
    (fun st p =>
      if t ∈ p.2 then
        let m2 := idUpd st.1 p.1 (-1)
        if idLookup m2 p.1 = 0 then (m2, st.2 ++ [p.1]) else (m2, st.2)
      else st)
    st

/-- The `while queue` loop, with explicit fuel (the queue receives at most
one initial and one decrement-triggered insertion per key, so any fuel of at
least `2 * g.length + 2` is never exhausted; an exhausted-fuel step returns
the list built so far). -/
def kahnLoop (g : Graph) : Nat → List String → List (String × Int) → List String → List String
  | 0, _, _, acc => acc
  | _ + 1, [], _, acc => acc
  | f + 1, t :: q, m, acc =>
      let st := kahnPass g t (m, q)
      kahnLoop g f st.2 st.1 (acc ++ [t])

/-- `topological_sort` from `src/db_backup_restore.py`: build `in_degree`
from the referenced side, seed the queue with keys of in-degree 0, run the
pop/decrement loop, and fail (returning `None`) when the produced list is
shorter than the key count. -/
def topological_sort (g : Graph) : Option (List String) :=
  let m := initIndeg g
  let q := (g.map Prod.fst).filter (fun t => idLookup m t == 0)
  let sorted := kahnLoop g (2 * g.length + 2) q m []
  if sorted.length = g.length then some sorted else none

example : topological_sort [("posts", ["users"])] = some ["posts"] := by decide

example : topological_sort [("A", ["B"]), ("B", [])] = none := by decide

example : topological_sort [("A", ["A"])] = none := by decide

example : topological_sort [("A", ["B"]), ("B", ["A"])] = none := by decide

example : topological_sort [] = some [] := by decide

/-- Number of graph keys whose dependency set contains `x` (the in-degree of
`x` counted on the referenced side, with set semantics per key). -/
def refCount (g : Graph) (x : String) : Nat :=
  (g.filter (fun p => decide (x ∈ p.2))).length

/-- All dependency sets of the graph are duplicate-free (they are Python
sets). -/
def NodupDeps (g : Graph) : Prop :=
  ∀ p ∈ g, List.Nodup p.2

theorem idLookup_nil (y : String) : idLookup [] y = 0 := rfl

theorem idLookup_cons (k : String) (v : Int) (rest : List (String × Int)) (y : String) :
    idLookup ((k, v) :: rest) y = if k = y then v else idLookup rest y := by
  by_cases h : k = y
  · subst h
    simp [idLookup, List.find?]
  · have hb : (k == y) = false := by
      rw [beq_eq_false_iff_ne]
      exact h
    simp [idLookup, List.find?, hb, h]

theorem idLookup_idUpd (m : List (String × Int)) (x y : String) (d : Int) :
    idLookup (idUpd m x d) y = if y = x then idLookup m y + d else idLookup m y := by
  induction m with
  | nil =>
      simp only [idUpd, idLookup_cons, idLookup_nil]
      by_cases h : y = x
      · simp [h]
      · rw [if_neg (fun h2 : x = y => h h2.symm), if_neg h]
  | cons p rest ih =>
      obtain ⟨k, v⟩ := p
      simp only [idUpd]
      by_cases hk : k = x
      · subst hk
        rw [if_pos rfl, idLookup_cons, idLookup_cons]
        by_cases hy : k = y
        · rw [if_pos hy, if_pos hy, if_pos hy.symm]
        · rw [if_neg hy, if_neg hy, if_neg (fun h2 : y = k => hy h2.symm)]
      · rw [if_neg hk, idLookup_cons, idLookup_cons]
        by_cases hy : k = y
        · have hyx : ¬ y = x := fun h2 => hk (hy.trans h2)
          rw [if_pos hy, if_neg hyx, if_pos hy]
        · rw [if_neg hy, if_neg hy, ih]

theorem idLookup_incAll (l : List String) (m : List (String × Int)) (x : String)
    (hl : l.Nodup) :
    idLookup (l.foldl (fun m2 d => idUpd m2 d 1) m) x =
      idLookup m x + (if x ∈ l then 1 else 0) := by
  induction l generalizing m with
  | nil => simp
  | cons d l ih =>
      have hnd : l.Nodup := hl.of_cons
      by_cases hx : x = d
      · subst hx
        have hxl : x ∉ l := (List.nodup_cons.mp hl).1
        simp only [List.foldl_cons, ih _ hnd, idLookup_idUpd, if_pos rfl, if_neg hxl,
          List.mem_cons, true_or, if_pos]
        ring
      · simp only [List.foldl_cons, ih _ hnd, idLookup_idUpd, if_neg hx, List.mem_cons]
        have : (x = d ∨ x ∈ l) ↔ x ∈ l := by
          constructor
          · rintro (h | h)
            · exact absurd h hx
            · exact h
          · exact Or.inr
        rw [if_congr this rfl rfl]

theorem idLookup_initIndeg (g : Graph) (x : String) (h : NodupDeps g) :
    idLookup (initIndeg g) x = (refCount g x : Int) := by
  suffices H : ∀ m, idLookup (g.foldl (fun m p => p.2.foldl (fun m2 d => idUpd m2 d 1) m) m) x
      = idLookup m x + (refCount g x : Int) by
    have := H []
    simpa [initIndeg, idLookup] using this
  induction g with
  | nil => intro m; simp [refCount]
  | cons p g ih =>
      intro m
      have hp : p.2.Nodup := h p (List.mem_cons_self p g)
      have hg : NodupDeps g := fun q hq => h q (List.mem_cons_of_mem p hq)
      have ih2 := ih hg
      simp only [List.foldl_cons, ih2, idLookup_incAll p.2 m x hp, refCount, List.filter_cons]
      by_cases hx : x ∈ p.2
      · simp [hx]
        ring
      · simp [hx]

theorem kahnPass_of_unref (g : Graph) (t : String) (st : List (String × Int) × List String)
    (h : ∀ p ∈ g, t ∉ p.2) : kahnPass g t st = st := by
  induction g generalizing st with
  | nil => rfl
  | cons p g ih =>
      have hp : t ∉ p.2 := h p (List.mem_cons_self p g)
      have hg : ∀ q ∈ g, t ∉ q.2 := fun q hq => h q (List.mem_cons_of_mem p hq)
      simp only [kahnPass, List.foldl_cons, if_neg hp]
      exact ih st hg

theorem kahnLoop_flush (g : Graph) (q : List String) :
    ∀ (fuel : Nat) (m : List (String × Int)) (acc : List String),
      (∀ x ∈ q, ∀ p ∈ g, x ∉ p.2) → q.length ≤ fuel →
      kahnLoop g fuel q m acc = acc ++ q := by
  induction q with
  | nil =>
      intro fuel m acc _ _
      cases fuel <;> simp [kahnLoop]
  | cons t q ih =>
      intro fuel m acc hq hfuel
      cases fuel with
      | zero => simp at hfuel
      | succ f =>
          have ht : ∀ p ∈ g, t ∉ p.2 := hq t (List.mem_cons_self t q)
          have hq2 : ∀ x ∈ q, ∀ p ∈ g, x ∉ p.2 :=
            fun x hx => hq x (List.mem_cons_of_mem t hx)
          have hf : q.length ≤ f := Nat.le_of_succ_le_succ (by simpa using hfuel)
          simp only [kahnLoop, kahnPass_of_unref g t (m, q) ht]
          rw [ih f m (acc ++ [t]) hq2 hf]
          simp only [List.append_assoc, List.singleton_append]

/-- The keys the initial queue receives: those of in-degree 0. -/
def zeroKeys (g : Graph) : List String :=
  (g.map Prod.fst).filter (fun t => decide (refCount g t = 0))

/-- Characterization of the resolver: the pop/decrement loop never enqueues
anything (a decrement target always retains positive residual in-degree
before reaching this loop — in fact every initially queued key is referenced
by nobody, so no decrement ever fires), hence the output is exactly the list
of keys with zero in-degree, and the sort succeeds only when no key is
referenced by any key. -/
theorem topological_sort_eq (g : Graph) (h : NodupDeps g) :
    topological_sort g =
      if (zeroKeys g).length = g.length then some (zeroKeys g) else none := by
  have hfilter :
      ((g.map Prod.fst).filter (fun t => idLookup (initIndeg g) t == 0)) = zeroKeys g := by
    apply List.filter_congr
    intro t _
    rw [idLookup_initIndeg g t h]
    by_cases hz : refCount g t = 0
    · simp [hz]
    · simp only [hz, decide_False]
      rw [beq_eq_false_iff_ne]
      exact_mod_cast hz
  have hmem : ∀ x ∈ zeroKeys g, ∀ p ∈ g, x ∉ p.2 := by
    intro x hx p hp hxp
    have hpred := List.of_mem_filter hx
    have hzero : refCount g x = 0 := by simpa using hpred
    have : p ∈ g.filter (fun p => decide (x ∈ p.2)) :=
      List.mem_filter.mpr ⟨hp, by simpa using hxp⟩
    have : 0 < refCount g x := by
      unfold refCount
      exact List.length_pos.mpr (fun hnil => by simp [hnil] at this)
    omega
  have hlen : (zeroKeys g).length ≤ 2 * g.length + 2 := by
    have h1 : (zeroKeys g).length ≤ (g.map Prod.fst).length := List.length_filter_le _ _
    have h2 : (g.map Prod.fst).length = g.length := List.length_map _ _
    omega
  simp only [topological_sort]
  rw [hfilter, kahnLoop_flush g (zeroKeys g) (2 * g.length + 2) (initIndeg g) [] hmem hlen]
  simp

/-- If some graph key is referenced by some (possibly the same) graph key,
the resolver fails: the referenced key never reaches the queue, so the output
is shorter than the key count and `None` is returned. -/
theorem topological_sort_none_of_key_referenced (g : Graph) (h : NodupDeps g)
    (x : String) (dx : List String) (y : String) (dy : List String)
    (hx : (x, dx) ∈ g) (hy : (y, dy) ∈ g) (href : y ∈ dx) :
    topological_sort g = none := by
  rw [topological_sort_eq g h]
  have hpos : 0 < refCount g y := by
    unfold refCount
    apply List.length_pos.mpr
    intro hnil
    have : (x, dx) ∈ g.filter (fun p => decide (y ∈ p.2)) :=
      List.mem_filter.mpr ⟨hx, by simpa using href⟩
    simp [hnil] at this
  have hne : (zeroKeys g).length ≠ g.length := by
    intro heq
    have hsub : List.Sublist (zeroKeys g) (g.map Prod.fst) := List.filter_sublist _
    have heq2 : (zeroKeys g).length = (g.map Prod.fst).length := by
      rw [heq, List.length_map]
    have hall : zeroKeys g = g.map Prod.fst := hsub.eq_of_length heq2
    have hykey : y ∈ g.map Prod.fst := List.mem_map.mpr ⟨(y, dy), hy, rfl⟩
    have : y ∈ zeroKeys g := hall ▸ hykey
    have := List.of_mem_filter this
    simp at this
    omega
  simp [hne]

/-! ### Snapshot document and database state

The JSON snapshot document (`version`, `tables → {schema, data}`) and the
target database, modelled as an association list `table name → rows`.
A table's presence in the list models its existence in the target. -/

/-- A row cell value.  `pDt` is a parsed datetime object (its payload is the
opaque result of the parser that produced it). -/
inductive PValue where
  | pNull
  | pStr (s : Str)
  | pInt (n : Int)
  | pBool (b : Bool)
  | pDt (d : Str)
deriving DecidableEq

/-- A row: mapping column name → value (unique keys, as in a JSON object). -/
abbrev Row := List (String × PValue)

/-- The `schema` sub-object of a table entry in the document. -/
structure TableSchema where
  columns : List ColDict
  primary_keys : List String
  unique_constraints : List (List String)
  indexes : List String
deriving DecidableEq

/-- A table entry of the document: schema plus data rows. -/
structure TableInfo where
  schema : TableSchema
  data : List Row
deriving DecidableEq

/-- The snapshot document (`backup_data`): version and the ordered
table-name → table-entry mapping. -/
structure BackupData where
  version : String
  tables : List (String × TableInfo)
deriving DecidableEq

/-- The target database: existing tables and their rows. -/
abbrev DB := List (String × List Row)

/-- Sequencing a fallible constructor over a list (a Python list
comprehension in which each element may raise): first failure wins. -/
def exListMap {α β : Type} (f : α → Except String β) : List α → Except String (List β)
  | [] => .ok []
  | a :: l =>
      match f a with
      | .error e => .error e
      | .ok b => (exListMap f l).map (fun bs => b :: bs)

/-- `x ∈ set`-flavoured insertion used for `dependency_graph[k].add(x)`. -/
def setInsert (l : List String) (x : String) : List String :=
  if x ∈ l then l else l ++ [x]

/-- `dependency_graph[table_name].add(x)` on the defaultdict-of-sets. -/
def graphAdd (g : Graph) (k : String) (x : String) : Graph :=
  match g with
  | [] => [(k, [x])]
  | (k2, ds) :: rest =>
      if k2 = k then (k2, setInsert ds x) :: rest else (k2, ds) :: graphAdd rest k x

/-- Building the dependency graph from the document (restore lines 327-331):
for every serialized column's foreign keys, add an edge
`table → referenced table`.  Tables with no foreign keys never become keys. -/
def buildGraph (doc : BackupData) : Graph :=
  doc.tables.foldl
    (fun g p =>
      p.2.schema.columns.foldl
        (fun g c => c.foreign_keys.foldl (fun g fk => graphAdd g p.1 fk.table) g)
        g)
    []

theorem setInsert_nodup (l : List String) (x : String) (h : l.Nodup) :
    (setInsert l x).Nodup := by
  unfold setInsert
  by_cases hx : x ∈ l
  · simpa [hx]
  · simp only [hx, if_false]
    simpa [List.nodup_append] using ⟨h, hx⟩

theorem nodupDeps_graphAdd (g : Graph) (k x : String) (h : NodupDeps g) :
    NodupDeps (graphAdd g k x) := by
  induction g with
  | nil =>
      intro p hp
      simp only [graphAdd, List.mem_singleton] at hp
      subst hp
      simp
  | cons q rest ih =>
      obtain ⟨k2, ds⟩ := q
      have hds : ds.Nodup := h (k2, ds) (List.mem_cons_self _ _)
      have hrest : NodupDeps rest := fun p hp => h p (List.mem_cons_of_mem _ hp)
      simp only [graphAdd]
      by_cases hk : k2 = k
      · simp only [if_pos hk]
        intro p hp
        rcases List.mem_cons.mp hp with hp1 | hp2
        · subst hp1
          exact setInsert_nodup ds x hds
        · exact hrest p hp2
      · simp only [if_neg hk]
        intro p hp
        rcases List.mem_cons.mp hp with hp1 | hp2
        · subst hp1
          exact hds
        · exact ih hrest p hp2

theorem nodupDeps_foldl {α : Type} (f : Graph → α → Graph)
    (hf : ∀ g a, NodupDeps g → NodupDeps (f g a)) :
    ∀ (l : List α) (g : Graph), NodupDeps g → NodupDeps (l.foldl f g) := by
  intro l
  induction l with
  | nil => intro g hg; simpa
  | cons a l ih => intro g hg; exact ih (f g a) (hf g a hg)

/-- The dependency graph of any document has duplicate-free dependency sets
(they are Python sets). -/
theorem nodupDeps_buildGraph (doc : BackupData) : NodupDeps (buildGraph doc) := by
  unfold buildGraph
  apply nodupDeps_foldl
  · intro g p hg
    apply nodupDeps_foldl
    · intro g2 c hg2
      apply nodupDeps_foldl
      · intro g3 fk hg3
        exact nodupDeps_graphAdd g3 p.1 fk.table hg3
      · exact hg2
    · exact hg
  · intro p hp
    simp at hp

/-! ### Restore orchestrator (`restore_database`, `src/db_backup_restore.py` lines 257-391) -/

/-- The two supplementary datetime parsers the restore path uses, left
abstract (they are Python standard-library collaborators, not repository
code): `datetime.fromisoformat` and
`datetime.strptime(_, "%Y-%m-%d %H:%M:%S.%f")`.  `some` is the parsed
datetime object, `none` a `ValueError`. -/
structure DtParsers where
  fromiso : String → Option String
  strptimeF : String → Option String

/-- `row[col]` (Python raises `KeyError` on a missing key; `none` here). -/
def rowGet (r : Row) (c : String) : Option PValue :=
  (r.find? (fun p => p.1 == c)).map (fun p => p.2)

/-- `row[col] = v`. -/
def rowSet (r : Row) (c : String) (v : PValue) : Row :=
  r.map (fun p => if p.1 = c then (c, v) else p)

/-- The columns of a (deserialized) table whose type is `DateTime` or `Date`
(restore lines 346-350). -/
def datetimeColumnNames (cols : List PyColumn) : List String :=
  (cols.filter (fun c => decide (c.type = PyType.DateTime ∨ c.type = PyType.Date))).map
    (fun c => c.name)

/-- Coercing one datetime-column cell on the restore path of
`db_backup_restore.py` (lines 355-362): `None` passes through untouched;
a string is parsed with `fromisoformat`, then — catching only that
`ValueError` — with the single `strptime` fallback, whose own failure is NOT
caught and aborts the attempt; a non-string raises `TypeError`. -/
def coerceDbValue (P : DtParsers) (v : PValue) : Except String PValue :=
  match v with
  | .pNull => .ok .pNull
  | .pStr s =>
      match P.fromiso s with
      | some d => .ok (.pDt d)
      | none =>
          match P.strptimeF s with
          | some d => .ok (.pDt d)
          | none => .error "ValueError: unrecognized datetime format"
  | _ => .error "TypeError: fromisoformat argument must be str"

/-- Coerce every datetime column of one row (restore lines 354-363). -/
def processRowDb (P : DtParsers) (dtCols : List String) (r : Row) : Except String Row :=
  match dtCols with
  | [] => .ok r
  | c :: rest =>
      match rowGet r c with
      | none => .error "KeyError: row column"
      | some v =>
          match coerceDbValue P v with
          | .error e => .error e
          | .ok v2 => processRowDb P rest (rowSet r c v2)

/-- Restore-attempt trace events. -/
inductive REvent where
  | fkDisabled
  | docLoaded
  | tableDefined (name : String)
  | tablesCreated (names : List String)
  | orderResolved (order : List String)
  | rowsDeleted (table : String)
  | rowsInserted (table : String) (rows : List Row)
  | fkEnabled
deriving DecidableEq

/-- The DefineTables stage (restore lines 294-319): deserialize every table's
columns; the constraint/index attachment has no failure modes relevant here
and is not tracked in the state. -/
def defineTables (doc : BackupData) : Except String Unit :=
  (exListMap (fun p => exListMap deserialize_column p.2.schema.columns) doc.tables).map
    (fun _ => ())

/-- Table existence check in the target. -/
def dbHas (db : DB) (t : String) : Bool :=
  db.any (fun q => q.1 == t)

/-- `metadata.create_all(engine)` (restore line 322): create every document
table that does not yet exist, with no rows.  `create_all` runs on the engine
(its own connection), so — unlike the data statements — its effect survives a
rollback of the restore transaction. -/
def createTables (doc : BackupData) (db : DB) : DB :=
  doc.tables.foldl (fun db p => if dbHas db p.1 then db else db ++ [(p.1, [])]) db

/-- Replace the rows of table `t` (used both for `table.delete()` and the
subsequent bulk insert). -/
def dbSetRows (db : DB) (t : String) (rows : List Row) : DB :=
  db.map (fun p => if p.1 = t then (t, rows) else p)

/-- `backup_data['tables'][table_name]`. -/
def docLookup (doc : BackupData) (t : String) : Option TableInfo :=
  (doc.tables.find? (fun p => p.1 == t)).map (fun p => p.2)

/-- The InsertData loop (restore lines 337-366): per table in resolved order,
delete pre-existing rows, then — when the table entry has data — coerce the
datetime columns of every row and bulk-insert the processed rows. -/
def insertTables (P : DtParsers) (doc : BackupData) :
    DB → List REvent → List String → Except String (DB × List REvent)
  | db, evs, [] => .ok (db, evs)
  | db, evs, t :: rest =>
      match docLookup doc t with
      | none => .error "KeyError: table missing from document"
      | some info =>
          let db2 := dbSetRows db t []
          let evs2 := evs ++ [REvent.rowsDeleted t]
          if info.data.isEmpty then insertTables P doc db2 evs2 rest
          else
            match exListMap deserialize_column info.schema.columns with
            | .error e => .error e
            | .ok cols =>
                match exListMap (processRowDb P (datetimeColumnNames cols)) info.data with
                | .error e => .error e
                | .ok rows =>
                    insertTables P doc (dbSetRows db2 t rows)
                      (evs2 ++ [REvent.rowsInserted t rows]) rest

/-- One restore attempt (the body of the retry loop, restore lines 274-374):
disable constraints, read the document, define tables, `create_all`, resolve
the order (a `None` — or, by Python falsiness, empty — result raises the
cyclic-dependency `ValueError`), insert data, re-enable constraints.  Errors
roll the transaction back (data changes are discarded) but the `create_all`
DDL, issued on the engine, persists.  The result is the post-attempt
database, the raised exception if any (never the locked condition: the pure
store model here does not lock), and the event trace. -/
def restoreAttempt (P : DtParsers) (doc : BackupData) (db : DB) :
    DB × Option String × List REvent :=
  let evs0 : List REvent := [.fkDisabled, .docLoaded]
  match defineTables doc with
  | .error e => (db, some e, evs0)
  | .ok _ =>
      let db1 := createTables doc db
      let evs1 := evs0 ++ doc.tables.map (fun p => REvent.tableDefined p.1) ++
        [REvent.tablesCreated (doc.tables.map Prod.fst)]
      match topological_sort (buildGraph doc) with
      | none => (db1, some "Cannot perform restore due to cyclic dependencies.", evs1)
      | some order =>
          if order.isEmpty then
            (db1, some "Cannot perform restore due to cyclic dependencies.", evs1)
          else
            match insertTables P doc db1 (evs1 ++ [REvent.orderResolved order]) order with
            | .error e => (db1, some e, evs1 ++ [REvent.orderResolved order])
            | .ok (db2, evs2) => (db2, none, evs2 ++ [REvent.fkEnabled])

/-- `restore_database` over the pure store model: the retry loop retries only
the locked `OperationalError`, which the pure store never raises, so every
exception of the attempt hits a `break`-ing handler and the loop runs at most
one attempt (`max_retries = 0` runs none).  Returns the final database, the
success flag, and the number of attempts made. -/
def restore_database (P : DtParsers) (doc : BackupData) (max_retries : Nat) (db : DB) :
    DB × Bool × Nat :=
  match max_retries with
  | 0 => (db, false, 0)
  | _ + 1 =>
      match restoreAttempt P doc db with
      | (db2, none, _) => (db2, true, 1)
      | (db2, some _, _) => (db2, false, 1)

/-! ### Plan-form decomposition of the insert loop

The per-table work of `InsertData` (which rows a table ends with, and whether
the attempt aborts) depends only on the document, never on the target state;
the loop is therefore equal to computing a plan `table → final rows` and
applying it.  This is the backbone of the idempotency proof. -/

/-- What `InsertData` will do to one table: `none` rows means delete-only
(the table entry has no data), `some rows` means delete then insert the
coerced rows. -/
def planTable (P : DtParsers) (doc : BackupData) (t : String) :
    Except String (String × Option (List Row)) :=
  match docLookup doc t with
  | none => .error "KeyError: table missing from document"
  | some info =>
      if info.data.isEmpty then .ok (t, none)
      else
        match exListMap deserialize_column info.schema.columns with
        | .error e => .error e
        | .ok cols =>
            match exListMap (processRowDb P (datetimeColumnNames cols)) info.data with
            | .error e => .error e
            | .ok rows => .ok (t, some rows)

/-- The whole insert plan, in resolved order. -/
def planInserts (P : DtParsers) (doc : BackupData) (order : List String) :
    Except String (List (String × Option (List Row))) :=
  exListMap (planTable P doc) order

/-- Applying a plan: set each planned table's rows (deletion = empty rows). -/
def applyPlan (plan : List (String × Option (List Row))) (db : DB) : DB :=
  plan.foldl (fun db p => dbSetRows db p.1 (p.2.getD [])) db

/-- The events the insert loop emits for a plan. -/
def planEvs (plan : List (String × Option (List Row))) : List REvent :=
  plan.flatMap fun p =>
    [REvent.rowsDeleted p.1] ++
      (match p.2 with
       | none => []
       | some rows => [REvent.rowsInserted p.1 rows])

theorem dbSetRows_dbSetRows_same (db : DB) (t : String) (a b : List Row) :
    dbSetRows (dbSetRows db t a) t b = dbSetRows db t b := by
  unfold dbSetRows
  rw [List.map_map]
  apply List.map_congr_left
  intro p _
  by_cases h : p.1 = t
  · simp [h]
  · simp [h]

theorem insertTables_eq_plan (P : DtParsers) (doc : BackupData) :
    ∀ (order : List String) (db : DB) (evs : List REvent),
      insertTables P doc db evs order =
        match planInserts P doc order with
        | .error e => .error e
        | .ok plan => .ok (applyPlan plan db, evs ++ planEvs plan) := by
  intro order
  induction order with
  | nil =>
      intro db evs
      simp [insertTables, planInserts, exListMap, applyPlan, planEvs]
  | cons t rest ih =>
      intro db evs
      simp only [insertTables, planInserts, exListMap, planTable]
      rcases hdl : docLookup doc t with _ | info
      · simp
      · simp only
        by_cases hdata : info.data.isEmpty
        · simp only [if_pos hdata, ih]
          rcases hrest : exListMap (planTable P doc) rest with e | plan
          · simp [planInserts, hrest, Except.map]
          · simp [planInserts, hrest, Except.map, applyPlan, planEvs]
        · simp only [if_neg hdata]
          rcases hcols : exListMap deserialize_column info.schema.columns with e | cols
          · simp
          · simp only
            rcases hrows : exListMap (processRowDb P (datetimeColumnNames cols)) info.data
              with e | rows
            · simp
            · simp only [ih]
              rcases hrest : exListMap (planTable P doc) rest with e | plan
              · simp [planInserts, hrest, Except.map]
              · simp [planInserts, hrest, Except.map, applyPlan, planEvs,
                  dbSetRows_dbSetRows_same]

/-- Keys (and their order) survive `dbSetRows`. -/
theorem dbSetRows_keys (db : DB) (t : String) (rows : List Row) :
    (dbSetRows db t rows).map Prod.fst = db.map Prod.fst := by
  unfold dbSetRows
  rw [List.map_map]
  apply List.map_congr_left
  intro p _
  by_cases h : p.1 = t
  · simp [h]
  · simp [h]

/-- Keys survive a whole plan application. -/
theorem applyPlan_keys (plan : List (String × Option (List Row))) :
    ∀ db : DB, (applyPlan plan db).map Prod.fst = db.map Prod.fst := by
  induction plan with
  | nil => intro db; rfl
  | cons p plan ih =>
      intro db
      simp only [applyPlan, List.foldl_cons]
      have := ih (dbSetRows db p.1 (p.2.getD []))
      simpa [applyPlan, dbSetRows_keys] using this

theorem dbHas_iff_mem (db : DB) (t : String) :
    dbHas db t = true ↔ t ∈ db.map Prod.fst := by
  unfold dbHas
  rw [List.any_eq_true]
  constructor
  · rintro ⟨q, hq, hqt⟩
    have hq1 : q.1 = t := by simpa using hqt
    exact List.mem_map.mpr ⟨q, hq, hq1⟩
  · intro h
    rcases List.mem_map.mp h with ⟨q, hq, hqt⟩
    exact ⟨q, hq, by simpa using hqt⟩

/-- The final rows an entry with key `t` gets from a plan, starting from `v`
(`foldl`: the last planned set wins). -/
def planFinal (plan : List (String × Option (List Row))) (t : String) (v : List Row) :
    List Row :=
  plan.foldl (fun v p => if p.1 = t then p.2.getD [] else v) v

theorem dbSetRows_as_map (db : DB) (t : String) (rows : List Row) :
    dbSetRows db t rows = db.map (fun q => (q.1, if q.1 = t then rows else q.2)) := by
  unfold dbSetRows
  apply List.map_congr_left
  intro p _
  by_cases h : p.1 = t
  · simp [h]
  · simp [h]

theorem applyPlan_as_map (plan : List (String × Option (List Row))) :
    ∀ db : DB, applyPlan plan db = db.map (fun q => (q.1, planFinal plan q.1 q.2)) := by
  induction plan with
  | nil =>
      intro db
      simp [applyPlan, planFinal]
  | cons p plan ih =>
      intro db
      simp only [applyPlan, List.foldl_cons]
      have step : dbSetRows db p.1 (p.2.getD []) =
          db.map (fun q => (q.1, if q.1 = p.1 then p.2.getD [] else q.2)) :=
        dbSetRows_as_map db p.1 (p.2.getD [])
      calc plan.foldl (fun db q => dbSetRows db q.1 (q.2.getD []))
            (dbSetRows db p.1 (p.2.getD []))
          = applyPlan plan (dbSetRows db p.1 (p.2.getD [])) := rfl
        _ = (dbSetRows db p.1 (p.2.getD [])).map
              (fun q => (q.1, planFinal plan q.1 q.2)) := ih _
        _ = db.map (fun q => (q.1, planFinal (p :: plan) q.1 q.2)) := by
            rw [step, List.map_map]
            apply List.map_congr_left
            intro q _
            simp only [Function.comp, planFinal, List.foldl_cons]
            by_cases h : q.1 = p.1
            · simp [h, eq_comm]
            · have h2 : ¬ p.1 = q.1 := fun hh => h hh.symm
              simp [h, h2]

theorem planFinal_skip (plan : List (String × Option (List Row))) (t : String)
    (h : ∀ p ∈ plan, p.1 ≠ t) : ∀ v, planFinal plan t v = v := by
  induction plan with
  | nil => intro v; rfl
  | cons p plan ih =>
      intro v
      have hp : p.1 ≠ t := h p (List.mem_cons_self _ _)
      have hplan : ∀ q ∈ plan, q.1 ≠ t := fun q hq => h q (List.mem_cons_of_mem _ hq)
      simp only [planFinal, List.foldl_cons, if_neg hp]
      exact ih hplan v

theorem planFinal_indep (plan : List (String × Option (List Row))) (t : String)
    (h : ∃ p ∈ plan, p.1 = t) : ∀ v w, planFinal plan t v = planFinal plan t w := by
  induction plan with
  | nil => simp at h
  | cons p plan ih =>
      intro v w
      by_cases hex : ∃ q ∈ plan, q.1 = t
      · simp only [planFinal, List.foldl_cons]
        exact ih hex _ _
      · rcases h with ⟨q, hq, hqt⟩
        rcases List.mem_cons.mp hq with hq1 | hq2
        · subst hq1
          simp only [planFinal, List.foldl_cons, if_pos hqt]
        · exact absurd ⟨q, hq2, hqt⟩ hex

theorem planFinal_idem (plan : List (String × Option (List Row))) (t : String) (v : List Row) :
    planFinal plan t (planFinal plan t v) = planFinal plan t v := by
  by_cases h : ∃ p ∈ plan, p.1 = t
  · exact planFinal_indep plan t h _ _
  · have h2 : ∀ p ∈ plan, p.1 ≠ t := by
      intro p hp hpt
      exact h ⟨p, hp, hpt⟩
    rw [planFinal_skip plan t h2, planFinal_skip plan t h2]

/-- Applying the same plan twice is applying it once. -/
theorem applyPlan_idem (plan : List (String × Option (List Row))) (db : DB) :
    applyPlan plan (applyPlan plan db) = applyPlan plan db := by
  rw [applyPlan_as_map plan (applyPlan plan db), applyPlan_as_map plan db, List.map_map]
  apply List.map_congr_left
  intro q _
  simp only [Function.comp]
  rw [planFinal_idem]

theorem dbHas_applyPlan (plan : List (String × Option (List Row))) (db : DB) (t : String) :
    dbHas (applyPlan plan db) t = dbHas db t := by
  unfold dbHas
  rw [applyPlan_as_map, List.any_map]
  rfl

theorem dbHas_append_true (db : DB) (entry : String × List Row) (t : String)
    (h : dbHas db t = true) : dbHas (db ++ [entry]) t = true := by
  unfold dbHas at h ⊢
  rw [List.any_append, h]
  rfl

theorem createTables_mono (l : List (String × TableInfo)) :
    ∀ (db : DB) (t : String), dbHas db t = true →
      dbHas (l.foldl (fun db p => if dbHas db p.1 then db else db ++ [(p.1, [])]) db) t
        = true := by
  induction l with
  | nil => intro db t h; simpa
  | cons q l ih =>
      intro db t h
      simp only [List.foldl_cons]
      by_cases hq : dbHas db q.1
      · rw [if_pos hq]
        exact ih db t h
      · rw [if_neg hq]
        exact ih _ t (dbHas_append_true db (q.1, []) t h)

theorem createTables_has_aux (l : List (String × TableInfo)) :
    ∀ (db : DB), ∀ p ∈ l,
      dbHas (l.foldl (fun db p => if dbHas db p.1 then db else db ++ [(p.1, [])]) db) p.1
        = true := by
  induction l with
  | nil => intro db p hp; simp at hp
  | cons q l ih =>
      intro db p hp
      simp only [List.foldl_cons]
      rcases List.mem_cons.mp hp with hp1 | hp2
      · subst hp1
        by_cases hq : dbHas db p.1
        · rw [if_pos hq]
          exact createTables_mono l db p.1 hq
        · rw [if_neg hq]
          apply createTables_mono l
          unfold dbHas
          rw [List.any_append]
          simp
      · by_cases hq : dbHas db q.1
        · rw [if_pos hq]
          exact ih db p hp2
        · rw [if_neg hq]
          exact ih _ p hp2

theorem createTables_has (doc : BackupData) (db : DB) :
    ∀ p ∈ doc.tables, dbHas (createTables doc db) p.1 = true :=
  createTables_has_aux doc.tables db

theorem createTables_all_present (doc : BackupData) (db : DB)
    (h : ∀ p ∈ doc.tables, dbHas db p.1 = true) : createTables doc db = db := by
  unfold createTables
  have : ∀ (l : List (String × TableInfo)), (∀ p ∈ l, dbHas db p.1 = true) →
      l.foldl (fun db p => if dbHas db p.1 then db else db ++ [(p.1, [])]) db = db := by
    intro l
    induction l with
    | nil => intro _; rfl
    | cons q l ih =>
        intro hl
        simp only [List.foldl_cons, if_pos (hl q (List.mem_cons_self _ _))]
        exact ih fun p hp => hl p (List.mem_cons_of_mem _ hp)
  exact this doc.tables h

theorem createTables_twice (doc : BackupData) (db : DB) :
    createTables doc (createTables doc db) = createTables doc db :=
  createTables_all_present doc _ (createTables_has doc db)

/-- One restore attempt is idempotent on the database state: a second attempt
from the post-state of a first attempt reproduces that post-state exactly
(failing attempts roll their data changes back and re-fail identically, and
`InsertData` overwrites each planned table with document-determined rows). -/
theorem restoreAttempt_state_idem (P : DtParsers) (doc : BackupData) (db : DB) :
    (restoreAttempt P doc (restoreAttempt P doc db).1).1 = (restoreAttempt P doc db).1 := by
  rcases hdef : defineTables doc with e | u
  · simp [restoreAttempt, hdef]
  · rcases hsort : topological_sort (buildGraph doc) with _ | order
    · simp [restoreAttempt, hdef, hsort, createTables_twice]
    · by_cases hord : order.isEmpty
      · simp [restoreAttempt, hdef, hsort, hord, createTables_twice]
      · rcases hplan : planInserts P doc order with e | plan
        · simp [restoreAttempt, hdef, hsort, hord, insertTables_eq_plan, hplan,
            createTables_twice]
        · have hfix : createTables doc (applyPlan plan (createTables doc db)) =
              applyPlan plan (createTables doc db) := by
            apply createTables_all_present
            intro p hp
            rw [dbHas_applyPlan]
            exact createTables_has doc db p hp
          simp [restoreAttempt, hdef, hsort, hord, insertTables_eq_plan, hplan, hfix,
            applyPlan_idem]

theorem restore_database_fst (P : DtParsers) (doc : BackupData) (n : Nat) (db : DB) :
    (restore_database P doc (n + 1) db).1 = (restoreAttempt P doc db).1 := by
  rcases h : restoreAttempt P doc db with ⟨db2, err, evs⟩
  cases err <;> simp [restore_database, h]

/-! ### The lock-retry loop (restore lines 272-273 and 376-391)

The attempts' interaction with the store is abstracted into an outcome per
attempt index: success, the distinguished locked `OperationalError`, or any
other error (a non-locked `OperationalError`, another `SQLAlchemyError`, or
any other exception — the three remaining handlers all `break`). -/

/-- What the store makes of one whole restore attempt. -/
inductive AttemptOutcome where
  | success
  | locked
  | otherError
deriving DecidableEq

/-- Observable events of the retry loop.  `attemptMade` is one full attempt,
which re-reads the document from the input file (the `open` sits inside the
`try` body); `sleepFor` is the `time.sleep(retry_delay)` between attempts. -/
inductive RetryEvent where
  | attemptMade
  | sleepFor (secs : Nat)
deriving DecidableEq

/-- Result of the retry loop: the event trace and whether restore returned
successfully (`False` covers both exhausted retries and a fatal error). -/
structure RetryRun where
  trace : List RetryEvent
  ok : Bool
deriving DecidableEq

/-- The `while retries < max_retries` loop: run an attempt; on success return;
on the locked condition increment the retry counter, sleep, and loop; on any
other error break.  The remaining iteration budget is `max_retries - retries`
and successive attempts consume successive outcomes. -/
def retryGo (delay : Nat) : (Nat → AttemptOutcome) → Nat → RetryRun
  | _, 0 => ⟨[], false⟩
  | o, r + 1 =>
      match o 0 with
      | .success => ⟨[.attemptMade], true⟩
      | .otherError => ⟨[.attemptMade], false⟩
      | .locked =>
          let rest := retryGo delay (fun i => o (i + 1)) r
          ⟨.attemptMade :: .sleepFor delay :: rest.trace, rest.ok⟩

/-- The retry loop of `restore_database`, over the abstract store. -/
def restore_retry_loop (o : Nat → AttemptOutcome) (max_retries retry_delay : Nat) :
    RetryRun :=
  retryGo retry_delay o max_retries

/-- The trace of `k` locked attempts: each attempt followed by the fixed
sleep. -/
def lockedTrace (delay : Nat) : Nat → List RetryEvent
  | 0 => []
  | k + 1 => RetryEvent.attemptMade :: RetryEvent.sleepFor delay :: lockedTrace delay k

theorem retry_success (delay : Nat) :
    ∀ (k : Nat) (o : Nat → AttemptOutcome) (r : Nat),
      (∀ i, i < k → o i = .locked) → o k = .success → k < r →
      retryGo delay o r = ⟨lockedTrace delay k ++ [.attemptMade], true⟩ := by
  intro k
  induction k with
  | zero =>
      intro o r _ hk hr
      obtain ⟨r2, rfl⟩ := Nat.exists_eq_succ_of_ne_zero (Nat.pos_iff_ne_zero.mp hr)
      simp [retryGo, hk, lockedTrace]
  | succ k ih =>
      intro o r hlock hk hr
      obtain ⟨r2, rfl⟩ := Nat.exists_eq_succ_of_ne_zero
        (Nat.pos_iff_ne_zero.mp (Nat.lt_of_le_of_lt (Nat.zero_le _) hr))
      have h0 : o 0 = .locked := hlock 0 (Nat.succ_pos k)
      have hrec := ih (fun i => o (i + 1)) r2
        (fun i hi => hlock (i + 1) (Nat.succ_lt_succ hi)) hk
        (Nat.lt_of_succ_lt_succ hr)
      simp [retryGo, h0, hrec, lockedTrace]

theorem retry_exhausted (delay : Nat) :
    ∀ (r : Nat) (o : Nat → AttemptOutcome),
      (∀ i, i < r → o i = .locked) →
      retryGo delay o r = ⟨lockedTrace delay r, false⟩ := by
  intro r
  induction r with
  | zero => intro o _; simp [retryGo, lockedTrace]
  | succ r ih =>
      intro o hlock
      have h0 : o 0 = .locked := hlock 0 (Nat.succ_pos r)
      have hrec := ih (fun i => o (i + 1)) (fun i hi => hlock (i + 1) (Nat.succ_lt_succ hi))
      simp [retryGo, h0, hrec, lockedTrace]

theorem retry_fatal (delay : Nat) :
    ∀ (k : Nat) (o : Nat → AttemptOutcome) (r : Nat),
      (∀ i, i < k → o i = .locked) → o k = .otherError → k < r →
      retryGo delay o r = ⟨lockedTrace delay k ++ [.attemptMade], false⟩ := by
  intro k
  induction k with
  | zero =>
      intro o r _ hk hr
      obtain ⟨r2, rfl⟩ := Nat.exists_eq_succ_of_ne_zero (Nat.pos_iff_ne_zero.mp hr)
      simp [retryGo, hk, lockedTrace]
  | succ k ih =>
      intro o r hlock hk hr
      obtain ⟨r2, rfl⟩ := Nat.exists_eq_succ_of_ne_zero
        (Nat.pos_iff_ne_zero.mp (Nat.lt_of_le_of_lt (Nat.zero_le _) hr))
      have h0 : o 0 = .locked := hlock 0 (Nat.succ_pos k)
      have hrec := ih (fun i => o (i + 1)) r2
        (fun i hi => hlock (i + 1) (Nat.succ_lt_succ hi)) hk
        (Nat.lt_of_succ_lt_succ hr)
      simp [retryGo, h0, hrec, lockedTrace]

/-! ### Value coercer of `src/BackupMate/main.py` (lines 360-378)

Three parsers tried in order, each on the raw string; the parsers themselves
(`datetime.fromisoformat`, `strptime` with `"%Y-%m-%d %H:%M:%S.%f"`, then
with `"%Y-%m-%d %H:%M:%S"`) are Python standard-library collaborators and
stay abstract. -/

/-- The parser chain of the packaged coercer. -/
structure DtParsers3 where
  fromiso : String → Option String
  strptimeF : String → Option String
  strptimeS : String → Option String

/-- Coerce one datetime-column cell (`main.py` lines 363-377): `None` is left
untouched; a string runs down the parser chain, first success wins, and total
failure logs a warning and nulls the value; a non-string raises `TypeError`
from `fromisoformat`, which no handler catches (temporal columns in a
snapshot hold textual representations, so this does not arise on documents
the system itself wrote).  Returns the new value and whether the warning was
logged. -/
def coerceMainValue (P : DtParsers3) (v : PValue) : Except String (PValue × Bool) :=
  match v with
  | .pNull => .ok (.pNull, false)
  | .pStr s =>
      match P.fromiso s with
      | some d => .ok (.pDt d, false)
      | none =>
          match P.strptimeF s with
          | some d => .ok (.pDt d, false)
          | none =>
              match P.strptimeS s with
              | some d => .ok (.pDt d, false)
              | none => .ok (.pNull, true)
  | _ => .error "TypeError: fromisoformat argument must be str"

/-- Coerce every datetime column of one row (`main.py` lines 362-378),
accumulating whether any warning was logged. -/
def processRowMain (P : DtParsers3) : List String → Row → Bool → Except String (Row × Bool)
  | [], r, w => .ok (r, w)
  | c :: rest, r, w =>
      match rowGet r c with
      | none => .error "KeyError: row column"
      | some v =>
          match coerceMainValue P v with
          | .error e => .error e
          | .ok (v2, w2) => processRowMain P rest (rowSet r c v2) (w || w2)

theorem rowGet_rowSet_ne (r : Row) (c c2 : String) (v : PValue) (h : c ≠ c2) :
    rowGet (rowSet r c2 v) c = rowGet r c := by
  induction r with
  | nil => rfl
  | cons p r ih =>
      simp only [rowSet, List.map_cons]
      by_cases hp : p.1 = c2
      · have hb : (c2 == c) = false := by
          rw [beq_eq_false_iff_ne]
          exact fun h2 => h h2.symm
        have hb2 : (p.1 == c) = false := by
          rw [beq_eq_false_iff_ne, hp]
          exact fun h2 => h h2.symm
        simp only [if_pos hp, rowGet, List.find?, hb, hb2]
        exact ih
      · simp only [if_neg hp, rowGet, List.find?]
        cases hfind : (p.1 == c) with
        | true => rfl
        | false => exact ih

/-- Columns outside the datetime set pass through the row coercion
unchanged. -/
theorem processRowMain_preserves (P : DtParsers3) :
    ∀ (dtCols : List String) (r : Row) (w : Bool) (c : String), c ∉ dtCols →
      ∀ r2 w2, processRowMain P dtCols r w = .ok (r2, w2) → rowGet r2 c = rowGet r c := by
  intro dtCols
  induction dtCols with
  | nil =>
      intro r w c _ r2 w2 h
      simp only [processRowMain, Except.ok.injEq, Prod.mk.injEq] at h
      rw [h.1]
  | cons c0 rest ih =>
      intro r w c hc r2 w2 h
      have hc0 : c ≠ c0 := fun h2 => hc (h2 ▸ List.mem_cons_self c0 rest)
      have hcr : c ∉ rest := fun h2 => hc (List.mem_cons_of_mem c0 h2)
      simp only [processRowMain] at h
      rcases hg : rowGet r c0 with _ | v
      · simp [hg] at h
      · simp only [hg] at h
        rcases hcv : coerceMainValue P v with e | vw
        · simp [hcv] at h
        · obtain ⟨v2, w3⟩ := vw
          simp only [hcv] at h
          have := ih (rowSet r c0 v2) (w || w3) c hcr r2 w2 h
          rw [this, rowGet_rowSet_ne r c c0 v2 hc0]

/-! ### Backup entry point (`backup_database`, `src/db_backup_restore.py` lines 183-255) -/

/-- One table as the store reports it: name, reflected columns, and the
result of fetching its rows (which may raise). -/
structure StoreTable where
  name : String
  columns : List PyColumn
  fetch : Except String (List Row)

/-- The store and sink collaborators of one backup run: the schema reflection
result and the file-write result. -/
structure BackupOracle where
  reflect : Except String (List StoreTable)
  write : Except String Unit

/-- The `try` body of `backup_database`: reflect, serialize every column of
every table, fetch every table's rows, and write the document as one unit.
Any failure aborts the whole body. -/
def backupBody (o : BackupOracle) : Except String (List (String × List ColDict × List Row)) :=
  match o.reflect with
  | .error e => .error e
  | .ok tabs =>
      match
        exListMap
          (fun t =>
            match exListMap serialize_column t.columns with
            | .error e => .error e
            | .ok cols =>
                match t.fetch with
                | .error e => .error e
                | .ok rows => .ok (t.name, cols, rows))
          tabs
      with
      | .error e => .error e
      | .ok entries =>
          match o.write with
          | .error e => .error e
          | .ok _ => .ok entries

/-- The observable completion of a Python call: the exception it propagates
(if any) and its return value (these functions return `None`, i.e. `Unit`,
on every path). -/
structure PyRun where
  raised : Option String
  retVal : Unit
deriving DecidableEq

/-- `backup_database`: the whole body is wrapped in
`except SQLAlchemyError` / `except Exception` handlers that only log, so the
call completes normally — returning `None` — whether the body succeeded or
failed. -/
def backup_database (o : BackupOracle) : PyRun :=
  match backupBody o with
  | .ok _ => ⟨none, ()⟩
  | .error _ => ⟨none, ()⟩

/-- `restore_database` as observed by its caller: the retry loop consumes
every attempt outcome (success returns; the locked condition loops; every
other error `break`s into the terminal log line), so the call always
completes normally, returning `None`. -/
def restore_database_run (o : Nat → AttemptOutcome) (max_retries retry_delay : Nat) :
    PyRun :=
  match restore_retry_loop o max_retries retry_delay with
  | ⟨_, true⟩ => ⟨none, ()⟩
  | ⟨_, false⟩ => ⟨none, ()⟩

/-! ### Claim theorems -/

theorem map_pyStr_vStr (o : Option Value) :
    (o.map pyStr).map Value.vStr = o.map (fun v => Value.vStr (pyStr v)) := by
  cases o <;> rfl

/-- The column the decoder reconstructs from the serializer's output, given
the reconstructed type. -/
def roundTripped (c : PyColumn) (rtType : PyType) : PyColumn :=
  { name := c.name
    type := rtType
    nullable := c.nullable
    primary_key := c.primary_key
    unique := c.unique
    default := (c.default.map pyStr).map Value.vStr
    foreign_keys := c.foreign_keys.map normalizeFKey
    indexes := [] }

/-- A column on which the C1 round-trip contract fails: an `ARRAY(String(50))`
column with integer default `0`. -/
def c1CexColumn : PyColumn :=
  { name := "payload"
    type := .ARRAY (.String (some 50))
    nullable := true
    primary_key := false
    unique := none
    default := some (.vInt 0)
    foreign_keys := []
    indexes := [] }

/-- C1, counterexample: it is NOT the case that for every supported column
`deserialize_column (serialize_column c)` reproduces the default exactly and
the type structurally (same category and type parameters).  On an
`ARRAY(String(50))` column with default `0`, the round-trip yields default
`"0"` (the `str(...)` of the original) and type `ARRAY(String())` (the
element is rebuilt from its bare class name, losing its length). -/
theorem c1_roundtrip_counterexample :
    ¬ ∀ c : PyColumn, (typeMappingName c.type).isSome →
        ∃ rt : PyColumn,
          (serialize_column c).bind deserialize_column = Except.ok rt ∧
          rt.name = c.name ∧ rt.nullable = c.nullable ∧ rt.primary_key = c.primary_key ∧
          rt.unique = c.unique ∧ rt.default = c.default ∧ rt.type = c.type := by
  intro hAll
  obtain ⟨rt, hok, _, _, _, _, hdef, _⟩ := hAll c1CexColumn (by decide)
  have hval : (serialize_column c1CexColumn).bind deserialize_column =
      Except.ok (roundTripped c1CexColumn (.ARRAY (.String none))) := rfl
  rw [hval] at hok
  injection hok with h
  subst h
  exact absurd hdef (by decide)

/-- C1, amended: for every column whose native type is in the supported set,
`deserialize_column (serialize_column c)` reproduces name, nullable flag,
primary-key flag and unique flag exactly; the default is reproduced up to
stringification (`str(...)` — exact when absent or already a string); the
type's logical category is always preserved, and the type (parameters
included) is reproduced exactly for every non-`ARRAY` supported type, while
an `ARRAY` element is rebuilt from its bare class name with default
parameters. -/
theorem c1_roundtrip_amended (c : PyColumn) (h : (typeMappingName c.type).isSome) :
    ∃ rt : PyColumn,
      (serialize_column c).bind deserialize_column = Except.ok rt ∧
      rt.name = c.name ∧ rt.nullable = c.nullable ∧ rt.primary_key = c.primary_key ∧
      rt.unique = c.unique ∧
      rt.default = c.default.map (fun v => Value.vStr (pyStr v)) ∧
      rt.type.clsNameOf = c.type.clsNameOf ∧
      ((∀ it : PyType, c.type ≠ .ARRAY it) → rt.type = c.type) := by
  rcases c with ⟨name, ty, nullable, pk, uniq, dflt, fks, idxs⟩
  cases ty with
  | Other s => simp [typeMappingName] at h
  | Integer =>
      exact ⟨roundTripped ⟨name, .Integer, nullable, pk, uniq, dflt, fks, idxs⟩ .Integer, rfl, rfl, rfl, rfl, rfl, map_pyStr_vStr dflt, rfl,
        fun _ => rfl⟩
  | Float =>
      exact ⟨roundTripped ⟨name, .Float, nullable, pk, uniq, dflt, fks, idxs⟩ .Float, rfl, rfl, rfl, rfl, rfl, map_pyStr_vStr dflt, rfl,
        fun _ => rfl⟩
  | Boolean =>
      exact ⟨roundTripped ⟨name, .Boolean, nullable, pk, uniq, dflt, fks, idxs⟩ .Boolean, rfl, rfl, rfl, rfl, rfl, map_pyStr_vStr dflt, rfl,
        fun _ => rfl⟩
  | DateTime =>
      exact ⟨roundTripped ⟨name, .DateTime, nullable, pk, uniq, dflt, fks, idxs⟩ .DateTime, rfl, rfl, rfl, rfl, rfl, map_pyStr_vStr dflt, rfl,
        fun _ => rfl⟩
  | Date =>
      exact ⟨roundTripped ⟨name, .Date, nullable, pk, uniq, dflt, fks, idxs⟩ .Date, rfl, rfl, rfl, rfl, rfl, map_pyStr_vStr dflt, rfl,
        fun _ => rfl⟩
  | Text =>
      exact ⟨roundTripped ⟨name, .Text, nullable, pk, uniq, dflt, fks, idxs⟩ .Text, rfl, rfl, rfl, rfl, rfl, map_pyStr_vStr dflt, rfl,
        fun _ => rfl⟩
  | Numeric =>
      exact ⟨roundTripped ⟨name, .Numeric, nullable, pk, uniq, dflt, fks, idxs⟩ .Numeric, rfl, rfl, rfl, rfl, rfl, map_pyStr_vStr dflt, rfl,
        fun _ => rfl⟩
  | LargeBinary =>
      exact ⟨roundTripped ⟨name, .LargeBinary, nullable, pk, uniq, dflt, fks, idxs⟩ .LargeBinary, rfl, rfl, rfl, rfl, rfl, map_pyStr_vStr dflt, rfl,
        fun _ => rfl⟩
  | String l =>
      exact ⟨roundTripped ⟨name, .String l, nullable, pk, uniq, dflt, fks, idxs⟩ (.String l), rfl, rfl, rfl, rfl, rfl, map_pyStr_vStr dflt, rfl,
        fun _ => rfl⟩
  | Enum vs =>
      exact ⟨roundTripped ⟨name, .Enum vs, nullable, pk, uniq, dflt, fks, idxs⟩ (.Enum vs), rfl, rfl, rfl, rfl, rfl, map_pyStr_vStr dflt, rfl,
        fun _ => rfl⟩
  | ARRAY item =>
      exact ⟨roundTripped ⟨name, .ARRAY item, nullable, pk, uniq, dflt, fks, idxs⟩
          (.ARRAY ((lookupTypeClass item.clsNameOf).getD .clsString).defaultInstance),
        rfl, rfl, rfl, rfl, rfl, map_pyStr_vStr dflt, rfl,
        fun hno => absurd rfl (hno item)⟩

/-- The enum column of the repository's round-trip test. -/
def c1WitnessColumn : PyColumn :=
  { name := "status"
    type := .Enum ["active", "inactive"]
    nullable := false
    primary_key := false
    unique := some true
    default := some (.vStr "active")
    foreign_keys := []
    indexes := [] }

/-- Witness for the amended C1 theorem at the test suite's enum column. -/
theorem c1_roundtrip_amended_witness :
    (typeMappingName c1WitnessColumn.type).isSome ∧
    ∃ rt : PyColumn,
      (serialize_column c1WitnessColumn).bind deserialize_column = Except.ok rt ∧
      rt.name = c1WitnessColumn.name ∧ rt.nullable = c1WitnessColumn.nullable ∧
      rt.primary_key = c1WitnessColumn.primary_key ∧
      rt.unique = c1WitnessColumn.unique ∧
      rt.default = c1WitnessColumn.default.map (fun v => Value.vStr (pyStr v)) ∧
      rt.type.clsNameOf = c1WitnessColumn.type.clsNameOf ∧
      ((∀ it : PyType, c1WitnessColumn.type ≠ .ARRAY it) → rt.type = c1WitnessColumn.type) :=
  ⟨by decide, c1_roundtrip_amended c1WitnessColumn (by decide)⟩

/-- C9: encoding a column whose native type is outside the supported closed
set fails with the unsupported-type error naming the column and the native
type (no descriptor is produced), and decoding a descriptor whose type name
is absent from the reverse table fails with the unsupported-type error (no
column is constructed). -/
theorem c9_unsupported_type_errors :
    (∀ c : PyColumn, typeMappingName c.type = none →
        serialize_column c =
          Except.error
            ("Unsupported column type: " ++ c.type.clsNameOf ++ " for column " ++ c.name)) ∧
    (∀ d : ColDict, lookupTypeClass d.type.type_ = none →
        deserialize_column d =
          Except.error
            ("Unsupported column type: " ++ d.type.type_ ++ " for column " ++ d.name)) := by
  constructor
  · intro c hc
    unfold serialize_column
    rw [hc]
  · intro d hd
    unfold deserialize_column
    rw [hd]

/-- Witness for C9: a `JSON`-typed column fails to encode and a `JSONB`-named
descriptor fails to decode, each with the unsupported-type message. -/
theorem c9_unsupported_type_errors_witness :
    typeMappingName (PyType.Other "JSON") = none ∧
    serialize_column
        { name := "meta", type := .Other "JSON", nullable := true, primary_key := false,
          unique := none, default := none, foreign_keys := [], indexes := [] } =
      Except.error "Unsupported column type: JSON for column meta" ∧
    lookupTypeClass "JSONB" = none ∧
    deserialize_column
        { name := "doc", type := { type_ := "JSONB" }, nullable := true,
          primary_key := false, unique := none, default := none, foreign_keys := [],
          index := false } =
      Except.error "Unsupported column type: JSONB for column doc" :=
  ⟨rfl, c9_unsupported_type_errors.1 _ rfl, rfl, c9_unsupported_type_errors.2 _ rfl⟩

/-- C3, code bug: the resolver rejects the acyclic dependency graph
`A → B` (with `B` having no dependencies) as cyclic — its in-degrees are
counted on the referenced side but decremented along outgoing edges, so `B`
is never emitted and the short output is reported as a cycle, where the claim
(and the function's own docstring) promise the topological order `[B, A]`. -/
theorem c3_acyclic_graph_rejected :
    topological_sort [("A", ["B"]), ("B", [])] = none := by decide

/-- C4, counterexample: a graph whose only table references itself is NOT
accepted by the resolver — `topological_sort` returns `None` (the
cyclic-dependency report), while the claim requires it to succeed with an
order containing the table. -/
theorem c4_self_loop_counterexample :
    topological_sort [("A", ["A"])] = none := by decide

/-- C4, amended: a table whose foreign key targets itself is reported as a
cyclic dependency like any other cycle: whenever some graph entry's
dependency set contains its own key, the resolver returns no order. -/
theorem c4_self_loop_amended (g : Graph) (t : String) (ds : List String)
    (hnd : NodupDeps g) (hmem : (t, ds) ∈ g) (hself : t ∈ ds) :
    topological_sort g = none :=
  topological_sort_none_of_key_referenced g hnd t ds t ds hmem hmem hself

/-- Witness for the amended C4 theorem: a self-referencing employees table is
rejected. -/
theorem c4_self_loop_amended_witness :
    NodupDeps [("employees", ["employees"])] ∧
    ("employees", ["employees"]) ∈ [("employees", ["employees"])] ∧
    "employees" ∈ ["employees"] ∧
    topological_sort [("employees", ["employees"])] = none :=
  ⟨by unfold NodupDeps; decide, by decide, by decide,
    c4_self_loop_amended [("employees", ["employees"])] "employees" ["employees"]
      (by unfold NodupDeps; decide) (by decide) (by decide)⟩

/-- An integer column descriptor with no foreign keys. -/
def intColDict (name : String) (pk : Bool) : ColDict :=
  { name := name
    type := { type_ := "Integer" }
    nullable := !pk
    primary_key := pk
    unique := none
    default := none
    foreign_keys := []
    index := false }

/-- An integer column descriptor carrying one foreign key. -/
def fkColDict (name refTable refCol : String) : ColDict :=
  { name := name
    type := { type_ := "Integer" }
    nullable := true
    primary_key := false
    unique := none
    default := none
    foreign_keys := [{ column := refCol, table := refTable, schema := none }]
    index := false }

/-- A string column descriptor. -/
def strColDict (name : String) : ColDict :=
  { name := name
    type := { type_ := "String", length := some (some 100) }
    nullable := true
    primary_key := false
    unique := none
    default := none
    foreign_keys := []
    index := false }

/-- Datetime parsers that never succeed (the concrete documents below have no
temporal columns, so the parsers are never consulted). -/
def noParsers : DtParsers :=
  { fromiso := fun _ => none
    strptimeF := fun _ => none }

/-- A document with a mutual foreign-key cycle: table `A` references `B` and
`B` references `A`. -/
def mutualDoc : BackupData :=
  { version := "1.0"
    tables :=
      [("A",
        { schema :=
            { columns := [intColDict "id" true, fkColDict "b_id" "B" "id"]
              primary_keys := ["id"]
              unique_constraints := []
              indexes := [] }
          data := [] }),
       ("B",
        { schema :=
            { columns := [intColDict "id" true, fkColDict "a_id" "A" "id"]
              primary_keys := ["id"]
              unique_constraints := []
              indexes := [] }
          data := [] })] }

/-- C5, counterexample: it is NOT the case that a mutual-cycle document makes
restore fail before any table is created.  On the `A ⇄ B` document, the
attempt's post-state has gained the created tables `A` and `B` (the
`create_all` DDL runs before the dependency graph is even built, and on the
engine, outside the rolled-back transaction), even though the attempt does
fail with the cyclic-dependency error. -/
theorem c5_before_creation_counterexample :
    ¬ ∀ (P : DtParsers) (doc : BackupData) (db : DB),
        (∃ a dsa b dsb, (a, dsa) ∈ buildGraph doc ∧ (b, dsb) ∈ buildGraph doc ∧
          b ∈ dsa ∧ a ∈ dsb ∧ a ≠ b) →
        (restoreAttempt P doc db).1 = db := by
  intro hAll
  have hcyc : ∃ a dsa b dsb, (a, dsa) ∈ buildGraph mutualDoc ∧
      (b, dsb) ∈ buildGraph mutualDoc ∧ b ∈ dsa ∧ a ∈ dsb ∧ a ≠ b :=
    ⟨"A", ["B"], "B", ["A"], by decide, by decide, by decide, by decide, by decide⟩
  have := hAll noParsers mutualDoc [] hcyc
  have hval : (restoreAttempt noParsers mutualDoc []).1 = [("A", []), ("B", [])] := rfl
  rw [hval] at this
  exact absurd this (by decide)

/-- C5, amended: on every document whose dependency graph contains a mutual
cycle (some graph key is referenced by a graph key), the restore attempt
fails with the cyclic-dependency error after the tables have been created
(the post-state is exactly the target with the document's tables created)
but before any data is touched (no delete or insert event occurs), and the
error is fatal: the full retry loop makes exactly one attempt and fails,
for every retry budget. -/
theorem c5_cycle_error_amended (P : DtParsers) (doc : BackupData) (db : DB) (n : Nat)
    (hdef : defineTables doc = Except.ok ())
    (a : String) (dsa : List String) (b : String) (dsb : List String)
    (ha : (a, dsa) ∈ buildGraph doc) (hb : (b, dsb) ∈ buildGraph doc)
    (hba : b ∈ dsa) (_hab : a ∈ dsb) :
    (restoreAttempt P doc db).2.1 =
      some "Cannot perform restore due to cyclic dependencies." ∧
    (restoreAttempt P doc db).1 = createTables doc db ∧
    (∀ t, REvent.rowsDeleted t ∉ (restoreAttempt P doc db).2.2) ∧
    (∀ t rows, REvent.rowsInserted t rows ∉ (restoreAttempt P doc db).2.2) ∧
    REvent.tablesCreated (doc.tables.map Prod.fst) ∈ (restoreAttempt P doc db).2.2 ∧
    restore_database P doc (n + 1) db = (createTables doc db, false, 1) := by
  have hsort : topological_sort (buildGraph doc) = none :=
    topological_sort_none_of_key_referenced (buildGraph doc) (nodupDeps_buildGraph doc)
      a dsa b dsb ha hb hba
  have hatt : restoreAttempt P doc db =
      (createTables doc db, some "Cannot perform restore due to cyclic dependencies.",
        [REvent.fkDisabled, REvent.docLoaded] ++
          doc.tables.map (fun p => REvent.tableDefined p.1) ++
          [REvent.tablesCreated (doc.tables.map Prod.fst)]) := by
    simp [restoreAttempt, hdef, hsort]
  refine ⟨by rw [hatt], by rw [hatt], ?_, ?_, ?_, ?_⟩
  · intro t
    rw [hatt]
    simp
  · intro t rows
    rw [hatt]
    simp
  · rw [hatt]
    simp
  · simp [restore_database, hatt]

/-- Witness for the amended C5 theorem at the mutual-cycle document. -/
theorem c5_cycle_error_amended_witness :
    defineTables mutualDoc = Except.ok () ∧
    (restoreAttempt noParsers mutualDoc []).2.1 =
      some "Cannot perform restore due to cyclic dependencies." ∧
    (restoreAttempt noParsers mutualDoc []).1 = createTables mutualDoc [] ∧
    restore_database noParsers mutualDoc 5 [] = (createTables mutualDoc [], false, 1) := by
  have h := c5_cycle_error_amended noParsers mutualDoc [] 4 rfl
    "A" ["B"] "B" ["A"] (by decide) (by decide) (by decide) (by decide)
  exact ⟨rfl, h.1, h.2.1, h.2.2.2.2.2⟩

/-- The users/posts snapshot of the spec scenario (no temporal columns):
`users` has no foreign keys, `posts.user_id` references `users.id`, two rows
each. -/
def usersPostsDoc : BackupData :=
  { version := "1.0"
    tables :=
      [("users",
        { schema :=
            { columns := [intColDict "id" true, strColDict "name"]
              primary_keys := ["id"]
              unique_constraints := [["name"]]
              indexes := [] }
          data :=
            [[("id", PValue.pInt 1), ("name", PValue.pStr "Alice")],
             [("id", PValue.pInt 2), ("name", PValue.pStr "Bob")]] }),
       ("posts",
        { schema :=
            { columns :=
                [intColDict "id" true, fkColDict "user_id" "users" "id",
                 strColDict "title"]
              primary_keys := ["id"]
              unique_constraints := []
              indexes := [] }
          data :=
            [[("id", PValue.pInt 1), ("user_id", PValue.pInt 1),
              ("title", PValue.pStr "First Post")],
             [("id", PValue.pInt 2), ("user_id", PValue.pInt 2),
              ("title", PValue.pStr "Second Post")]] })] }

/-- C2, code bug: restoring the users/posts document into an empty target
does NOT reproduce the row counts.  The dependency graph only contains
tables that have foreign keys, so the resolved order is `["posts"]`:
`posts` is inserted first (not after `users`) and the two `users` rows are
never inserted at all — the restore nevertheless reports success.  The
trace shows the single delete/insert pair for `posts` and no data event for
`users`. -/
theorem c2_users_rows_never_inserted :
    restoreAttempt noParsers usersPostsDoc [] =
      ([("users", []),
        ("posts",
          [[("id", PValue.pInt 1), ("user_id", PValue.pInt 1),
            ("title", PValue.pStr "First Post")],
           [("id", PValue.pInt 2), ("user_id", PValue.pInt 2),
            ("title", PValue.pStr "Second Post")]])],
       none,
       [REvent.fkDisabled, REvent.docLoaded, REvent.tableDefined "users",
        REvent.tableDefined "posts", REvent.tablesCreated ["users", "posts"],
        REvent.orderResolved ["posts"], REvent.rowsDeleted "posts",
        REvent.rowsInserted "posts"
          [[("id", PValue.pInt 1), ("user_id", PValue.pInt 1),
            ("title", PValue.pStr "First Post")],
           [("id", PValue.pInt 2), ("user_id", PValue.pInt 2),
            ("title", PValue.pStr "Second Post")]],
        REvent.fkEnabled]) := by
  rfl

/-- C6: the retry policy.  If the store reports the locked condition for the
first `k` attempts then: with `k < max_retries` and attempt `k + 1`
succeeding, restore succeeds after exactly `k` retries, each retry preceded
by one sleep of the fixed configured delay (each `attemptMade` event is one
full attempt including re-reading the document); with `max_retries ≤ k`,
restore fails terminally after `max_retries` attempts; and a non-locked
error on attempt `k + 1` ends the operation immediately with no further
retries. -/
theorem c6_retry_policy (o : Nat → AttemptOutcome) (k max_retries retry_delay : Nat)
    (hlock : ∀ i, i < k → o i = .locked) :
    (k < max_retries → o k = .success →
        restore_retry_loop o max_retries retry_delay =
          ⟨lockedTrace retry_delay k ++ [.attemptMade], true⟩) ∧
    (max_retries ≤ k →
        restore_retry_loop o max_retries retry_delay =
          ⟨lockedTrace retry_delay max_retries, false⟩) ∧
    (k < max_retries → o k = .otherError →
        restore_retry_loop o max_retries retry_delay =
          ⟨lockedTrace retry_delay k ++ [.attemptMade], false⟩) := by
  refine ⟨?_, ?_, ?_⟩
  · intro hk hs
    exact retry_success retry_delay k o max_retries hlock hs hk
  · intro hk
    exact retry_exhausted retry_delay max_retries o
      (fun i hi => hlock i (Nat.lt_of_lt_of_le hi hk))
  · intro hk hs
    exact retry_fatal retry_delay k o max_retries hlock hs hk

/-- Witness for C6: with the store locked for the first two attempts and the
third succeeding, a budget of five retries and a five-second delay, restore
succeeds on attempt three after two sleeps. -/
theorem c6_retry_policy_witness :
    restore_retry_loop (fun i => if i < 2 then AttemptOutcome.locked else .success) 5 5 =
      ⟨lockedTrace 5 2 ++ [.attemptMade], true⟩ :=
  (c6_retry_policy (fun i => if i < 2 then AttemptOutcome.locked else .success) 2 5 5
      (by intro i hi
          have h2 : i = 0 ∨ i = 1 := by omega
          rcases h2 with h | h <;> subst h <;> rfl)).1
    (by omega) rfl

/-- C7: restore is idempotent on the database state — running
`restore_database` with the same document twice in succession leaves the
target with the same final row sets as running it once (for every document,
every target state, every retry budget and any datetime parsers): per
planned table, pre-existing rows are deleted before the document's rows are
inserted, failing attempts roll their data changes back, and the created
tables of a first run are simply found present by the second. -/
theorem c7_restore_idempotent (P : DtParsers) (doc : BackupData) (max_retries : Nat)
    (db : DB) :
    (restore_database P doc max_retries (restore_database P doc max_retries db).1).1 =
      (restore_database P doc max_retries db).1 := by
  cases max_retries with
  | zero => rfl
  | succ n =>
      rw [restore_database_fst, restore_database_fst, restoreAttempt_state_idem]

/-- C8: during restore (packaged coercer of `BackupMate/main.py`), a value in
a DateTime/Date column is parsed with ISO-8601 first, then the two fallback
formats in order, first success winning; when no format matches, the value
becomes null and the warning flag is set — no error is raised on the textual
values temporal columns hold; and values in non-temporal columns pass
through the row coercion unchanged. -/
theorem c8_temporal_coercion (P : DtParsers3) (s : String) (dtCols : List String)
    (r : Row) (c : String) :
    (∀ d, P.fromiso s = some d →
        coerceMainValue P (.pStr s) = Except.ok (.pDt d, false)) ∧
    (∀ d, P.fromiso s = none → P.strptimeF s = some d →
        coerceMainValue P (.pStr s) = Except.ok (.pDt d, false)) ∧
    (∀ d, P.fromiso s = none → P.strptimeF s = none → P.strptimeS s = some d →
        coerceMainValue P (.pStr s) = Except.ok (.pDt d, false)) ∧
    (P.fromiso s = none → P.strptimeF s = none → P.strptimeS s = none →
        coerceMainValue P (.pStr s) = Except.ok (.pNull, true)) ∧
    (coerceMainValue P .pNull = Except.ok (.pNull, false)) ∧
    (c ∉ dtCols → ∀ r2 w2, processRowMain P dtCols r false = Except.ok (r2, w2) →
        rowGet r2 c = rowGet r c) := by
  refine ⟨?_, ?_, ?_, ?_, rfl, ?_⟩
  · intro d h
    simp [coerceMainValue, h]
  · intro d h1 h2
    simp [coerceMainValue, h1, h2]
  · intro d h1 h2 h3
    simp [coerceMainValue, h1, h2, h3]
  · intro h1 h2 h3
    simp [coerceMainValue, h1, h2, h3]
  · intro hc r2 w2 hp
    exact processRowMain_preserves P dtCols r false c hc r2 w2 hp

/-- Parsers recognizing one concrete string each, for the C8 witness. -/
def witnessParsers : DtParsers3 :=
  { fromiso := fun s => if s = "2024-01-01T10:00:00" then some "iso" else none
    strptimeF := fun s => if s = "2024-01-01 10:00:00.000000" then some "frac" else none
    strptimeS := fun s => if s = "2024-01-01 10:00:00" then some "plain" else none }

/-- Witness for C8: the third format is reached only after the first two
fail, and a string no format matches becomes null with the warning set. -/
theorem c8_temporal_coercion_witness :
    coerceMainValue witnessParsers (.pStr "2024-01-01 10:00:00") =
      Except.ok (.pDt "plain", false) ∧
    coerceMainValue witnessParsers (.pStr "01/02/2024") = Except.ok (.pNull, true) :=
  ⟨(c8_temporal_coercion witnessParsers "2024-01-01 10:00:00" [] [] "x").2.2.1
      "plain" rfl rfl rfl,
   (c8_temporal_coercion witnessParsers "01/02/2024" [] [] "x").2.2.2.1 rfl rfl rfl⟩

/-- C10: `backup_database` and `restore_database` return normally for every
input — the catch-all handlers swallow every exception of the bodies
(document, store and codec errors alike) and only log, both functions return
`None` on success and on failure, so a caller can distinguish neither by a
propagated exception nor by the return value. -/
theorem c10_never_raises (o : BackupOracle) (att : Nat → AttemptOutcome)
    (max_retries retry_delay : Nat) :
    (backup_database o).raised = none ∧ (backup_database o).retVal = () ∧
    (restore_database_run att max_retries retry_delay).raised = none ∧
    (restore_database_run att max_retries retry_delay).retVal = () := by
  refine ⟨?_, rfl, ?_, rfl⟩
  · unfold backup_database
    rcases backupBody o with e | entries <;> rfl
  · unfold restore_database_run
    rcases restore_retry_loop att max_retries retry_delay with ⟨tr, ok⟩
    cases ok <;> rfl

end BackupMate
